import Mathlib

/-!
Shallow embedding of the streaming and discovery control plane of the
dlna-movie-cast media server, together with proofs of the specification
claims about it.  Each definition mirrors one Go function of the
repository (file and function named in its doc comment); machine
integers are modelled as `Nat`/`Int`, Go maps as association lists, and
fallible operations as `Except`/`Option`.
-/

namespace DlnaCast

/-! ## String helpers (Go `strings` package semantics) -/

/-- Character-level splitter on a separator character, mirroring the way
`strings.Split(s, "/")` decomposes a path: `splitOnChar` of an empty
list is `[[]]`, and every separator opens a new group. -/
def splitOnChar (sep : Char) : List Char → List (List Char)
  | [] => [[]]
  | c :: cs =>
    let r := splitOnChar sep cs
    if c = sep then [] :: r
    else
      match r with
      | [] => [[c]]
      | h :: t => (c :: h) :: t

/-- Does `needle` occur at the head of `hay`? -/
def headOccurs : List Char → List Char → Bool
  | [], _ => true
  | _ :: _, [] => false
  | n :: ns, h :: hs => n = h && headOccurs ns hs

/-- Index of the first occurrence of `needle` in `hay`
(Go `strings.Index`, with `none` for Go's `-1`). -/
def firstOccur (hay needle : List Char) : Option Nat :=
  match hay with
  | [] => if headOccurs needle [] then some 0 else none
  | _ :: hs =>
    if headOccurs needle hay then some 0
    else (firstOccur hs needle).map (· + 1)

/-- Go `strings.Contains`. -/
def strContains (hay needle : String) : Bool :=
  (firstOccur hay.toList needle.toList).isSome

/-- ASCII lower-casing of a character (the only case folding the
repository's inputs exercise). -/
def lowerChar (c : Char) : Char :=
  if c.val ≥ 65 ∧ c.val ≤ 90 then Char.ofNat (c.toNat + 32) else c

/-- ASCII lower-casing of a string (Go `strings.ToLower` on the ASCII
inputs that occur here). -/
def lowerStr (s : String) : String :=
  String.mk (s.toList.map lowerChar)

/-- Go `strings.EqualFold`, restricted to ASCII case folding. -/
def equalFold (a b : String) : Bool :=
  lowerStr a = lowerStr b

/-- Go `strings.HasPrefix`. -/
def hasGoPrefix (s pre : String) : Bool :=
  headOccurs pre.toList s.toList

/-- Go `strings.HasSuffix`. -/
def hasSuffixStr (s suf : String) : Bool :=
  headOccurs suf.toList.reverse s.toList.reverse

/-- Go `strconv.Atoi` of a digit run (no sign). -/
def atoiDigits : List Char → Option Nat
  | [] => none
  | cs => cs.foldlM (fun acc c => if c.isDigit then some (acc * 10 + (c.toNat - 48)) else none) 0

/-- Go `v, _ := strconv.Atoi(s)` as used by the repository: the parsed
integer on success and `0` on a parse error (the error is discarded at
every call site). -/
def goAtoi (s : String) : Int :=
  match s.toList with
  | '-' :: rest => match atoiDigits rest with
    | some n => -(n : Int)
    | none => 0
  | '+' :: rest => match atoiDigits rest with
    | some n => (n : Int)
    | none => 0
  | cs => match atoiDigits cs with
    | some n => (n : Int)
    | none => 0

/-! ## Go `path/filepath` semantics (Unix separator) -/

/-- Go `strings.Join` with a `/` separator, at character level. -/
def joinSlash : List (List Char) → List Char
  | [] => []
  | [x] => x
  | x :: xs => x ++ '/' :: joinSlash xs

/-- One element of the rewrite loop inside Go `filepath.Clean`: empty
and `.` elements vanish, `..` pops the last kept element unless the kept
tail is itself a `..` run (or the path is rooted, where a leading `..`
vanishes), anything else is kept. -/
def cleanStep (rooted : Bool) (acc : List (List Char)) (e : List Char) :
    List (List Char) :=
  if e = [] ∨ e = ['.'] then acc
  else if e = ['.', '.'] then
    if acc ≠ [] ∧ acc.getLast? ≠ some ['.', '.'] then acc.dropLast
    else if rooted then acc
    else acc ++ [['.', '.']]
  else acc ++ [e]

/-- Go `filepath.Clean` on the Unix separator at character level: split
on `/`, process the elements left to right, re-join, keep the root, and
map the empty result to `.`. -/
def filepathCleanCore : List Char → List Char
  | [] => ['.']
  | c :: cs =>
    let rooted := c = '/'
    let out := (splitOnChar '/' (c :: cs)).foldl (cleanStep rooted) []
    let joined := joinSlash out
    if rooted then '/' :: joined
    else if joined = [] then ['.'] else joined

/-- Go `filepath.Clean`. -/
def filepathClean (p : String) : String :=
  String.mk (filepathCleanCore p.toList)

/-- Go `filepath.IsAbs` on Unix: a leading separator. -/
def filepathIsAbs (p : String) : Bool :=
  hasGoPrefix p "/"

/-- Go `filepath.Join` of two non-empty elements. -/
def filepathJoin2 (a b : String) : String :=
  filepathClean (a ++ "/" ++ b)

/-- Go `filepath.Join` of three non-empty elements. -/
def filepathJoin3 (a b c : String) : String :=
  filepathClean (a ++ "/" ++ b ++ "/" ++ c)

/-- `p` resolves strictly below the directory `dir`:
`p = dir / rest` for a non-empty remainder. -/
def pathStrictlyUnder (dir p : String) : Prop :=
  ∃ rest, rest ≠ [] ∧ p.toList = dir.toList ++ '/' :: rest

/-! ## Library collaborator (backend/internal/library) -/

/-- The fields of `library.Movie` the control plane reads. -/
structure Movie where
  id : String
  title : String
  duration : Nat
  filePath : String
  fileSize : Nat
  videoCodec : String
  videoWidth : Nat
  videoHeight : Nat
  deriving Repr, DecidableEq

/-- `Library.GetMovie`: lookup by id, `none` for the
"movie not found" error. -/
def getMovie (movies : List Movie) (id : String) : Option Movie :=
  movies.find? (fun m => m.id = id)

/-! ## ContentDirectory (backend/internal/dlna/contentdirectory.go) -/

/-- `extractXMLValue`: the text between `<tag>` and the next `</tag>`,
or the empty string when either tag is missing (the Go function returns
`""` on both early-return paths). -/
def extractXMLValue (xmlS tag : String) : String :=
  let startTag := "<" ++ tag ++ ">"
  let endTag := "</" ++ tag ++ ">"
  match firstOccur xmlS.toList startTag.toList with
  | none => ""
  | some start =>
    let afterStart := xmlS.toList.drop (start + startTag.toList.length)
    match firstOccur afterStart endTag.toList with
    | none => ""
    | some e => String.mk (afterStart.take e)

/-- The pagination step of `buildMoviesList`: clamp `end = start+count`
and `start` to the list length and slice `movies[start:end]`.
`StartingIndex`/`RequestedCount` are `ui4` state variables, modelled as
`Nat`. -/
def paginateMovies (movies : List Movie) (start count : Nat) : List Movie :=
  let total := movies.length
  let e := if start + count > total then total else start + count
  let s := if start > total then total else start
  (movies.take e).drop s

/-- `buildMovieItem`: one DIDL-Lite `<item>` per movie.  The exact
escaping does not matter to any claim; the string is kept abstract in
the shape the Go `fmt.Sprintf` produces. -/
def buildMovieItem (serverAddr : String) (m : Movie) : String :=
  let duration :=
    toString (m.duration / 3600) ++ ":" ++ toString ((m.duration % 3600) / 60)
      ++ ":" ++ toString (m.duration % 60)
  let dlnaProfile :=
    if m.videoCodec = "hevc" ∨ m.videoCodec = "h265" then
      "DLNA.ORG_PN=HEVC_Main10_L5"
    else
      "DLNA.ORG_PN=AVC_MP4_MP_SD_AAC_MULT5"
  "\n<item id=\"" ++ m.id ++ "\" parentID=\"movies\" restricted=\"1\">\n<dc:title>"
    ++ m.title ++ "</dc:title>\n<upnp:class>object.item.videoItem.movie</upnp:class>\n<res protocolInfo=\"http-get:*:video/mp4:"
    ++ dlnaProfile ++ ";DLNA.ORG_OP=01;DLNA.ORG_FLAGS=01700000000000000000000000000000\" size=\""
    ++ toString m.fileSize ++ "\" duration=\"" ++ duration ++ "\" resolution=\""
    ++ toString m.videoWidth ++ "x" ++ toString m.videoHeight ++ "\">"
    ++ serverAddr ++ "/stream/" ++ m.id ++ "</res>\n</item>"

/-- Opening tag of the DIDL-Lite document `buildMoviesList` emits. -/
def didlOpen : String :=
  "<DIDL-Lite xmlns=\"urn:schemas-upnp-org:metadata-1-0/DIDL-Lite/\" xmlns:dc=\"http://purl.org/dc/elements/1.1/\" xmlns:upnp=\"urn:schemas-upnp-org:metadata-1-0/upnp/\" xmlns:dlna=\"urn:schemas-dlna-org:metadata-1-0/\">"

/-- `buildMoviesList`: DIDL-Lite for the paginated movie slice together
with `NumberReturned` and `TotalMatches`. -/
def buildMoviesList (serverAddr : String) (movies : List Movie) (start count : Nat) :
    String × Nat × Nat :=
  let page := paginateMovies movies start count
  (didlOpen ++ String.join (page.map (buildMovieItem serverAddr)) ++ "</DIDL-Lite>",
   page.length, movies.length)

/-- The empty DIDL-Lite document `buildItemMetadata` returns for an
unknown object id. -/
def emptyDidl : String :=
  "<DIDL-Lite xmlns=\"urn:schemas-upnp-org:metadata-1-0/DIDL-Lite/\"></DIDL-Lite>"

/-- `buildItemMetadata`: metadata for one object id, or the empty
document with zero counts when the id names no movie. -/
def buildItemMetadata (serverAddr : String) (movies : List Movie) (objectID : String) :
    String × Nat × Nat :=
  match getMovie movies objectID with
  | none => (emptyDidl, 0, 0)
  | some m => (didlOpen ++ buildMovieItem serverAddr m ++ "</DIDL-Lite>", 1, 1)

/-- `wrapBrowseResponse`: the SOAP `BrowseResponse` envelope around an
(escaped) DIDL-Lite payload.  Escaping is irrelevant to the claims and
elided; the envelope shape is kept. -/
def wrapBrowseResponse (didl : String) (numberReturned totalMatches updateID : Nat) :
    String :=
  "<?xml version=\"1.0\" encoding=\"UTF-8\"?>\n<s:Envelope><s:Body>\n<u:BrowseResponse xmlns:u=\"urn:schemas-upnp-org:service:ContentDirectory:1\">\n<Result>"
    ++ didl ++ "</Result>\n<NumberReturned>" ++ toString numberReturned
    ++ "</NumberReturned>\n<TotalMatches>" ++ toString totalMatches
    ++ "</TotalMatches>\n<UpdateID>" ++ toString updateID
    ++ "</UpdateID>\n</u:BrowseResponse>\n</s:Body>\n</s:Envelope>"

/-- Static DIDL-Lite documents of the root and movies containers. -/
def rootContainerMetadata : String := "root-container-metadata"

/-- `buildRootContainerChildren` / `buildMoviesContainerMetadata`
payloads (their content never matters to a claim). -/
def moviesContainerMetadata : String := "movies-container-metadata"

/-- `handleBrowse`: parse the Browse parameters with `extractXMLValue`,
default a zero `RequestedCount` to 100, dispatch on `ObjectID`, and wrap
the result.  Negative Go integers cannot reach the slice because the
requests carry `ui4` values; indices are modelled as `Nat`. -/
def handleBrowse (serverAddr : String) (movies : List Movie) (updateID : Nat)
    (body : String) : String :=
  let objectID := extractXMLValue body "ObjectID"
  let browseFlag := extractXMLValue body "BrowseFlag"
  let startingIndex := (goAtoi (extractXMLValue body "StartingIndex")).toNat
  let requestedCount0 := (goAtoi (extractXMLValue body "RequestedCount")).toNat
  let requestedCount := if requestedCount0 = 0 then 100 else requestedCount0
  let result : String × Nat × Nat :=
    if objectID = "0" then
      if browseFlag = "BrowseMetadata" then (rootContainerMetadata, 1, 1)
      else (moviesContainerMetadata, 1, 1)
    else if objectID = "movies" then
      if browseFlag = "BrowseMetadata" then (moviesContainerMetadata, 1, 1)
      else buildMoviesList serverAddr movies startingIndex requestedCount
    else
      buildItemMetadata serverAddr movies objectID
  wrapBrowseResponse result.1 result.2.1 result.2.2 updateID

/-- `HandleControl` for the ContentDirectory endpoint: dispatch on a
substring of the `SOAPAction` header; unknown actions are the HTTP 400
error path (`Except.error`). -/
def handleControl (serverAddr : String) (movies : List Movie) (updateID : Nat)
    (soapAction body : String) : Except String String :=
  if strContains soapAction "Browse" then
    .ok (handleBrowse serverAddr movies updateID body)
  else if strContains soapAction "GetSystemUpdateID" then
    .ok "get-system-update-id-response"
  else if strContains soapAction "GetSearchCapabilities" then
    .ok "get-search-capabilities-response"
  else if strContains soapAction "GetSortCapabilities" then
    .ok "get-sort-capabilities-response"
  else
    .error "Unknown action"

/-! ## SSDP peer (backend/internal/dlna/ssdp.go) -/

/-- Reading a key from the Go header map produced by `parseHeaders`
(missing key reads as the empty string; a duplicate header line
overwrites, so the last occurrence wins). -/
def headerGet (headers : List (String × String)) (k : String) : String :=
  match headers.reverse.find? (fun p => p.1 = k) with
  | some p => p.2
  | none => ""

/-- The repeated idiom `v := headers["K"]; if v == "" { v = headers["k"] }`. -/
def headerGetFold (headers : List (String × String)) (k kLower : String) : String :=
  let v := headerGet headers k
  if v = "" then headerGet headers kLower else v

/-- The unicast HTTP/1.1 200 reply `sendSearchResponse` emits. -/
structure SearchResponse where
  cacheControl : String
  location : String
  server : String
  st : String
  usn : String
  deriving Repr, DecidableEq

/-- `handleSearch` + `sendSearchResponse`: answer an M-SEARCH datagram
with a unicast response exactly when the `ST` header matches the switch
in `handleSearch`; the response fields are the ones `sendSearchResponse`
formats (`DATE` varies with the clock and is elided). -/
def handleSearch (selfUUID serverAddr : String) (headers : List (String × String)) :
    Option SearchResponse :=
  let st := headerGetFold headers "ST" "st"
  if st = "ssdp:all" ∨ st = "upnp:rootdevice"
      ∨ st = "urn:schemas-upnp-org:device:MediaServer:1"
      ∨ st = "urn:schemas-upnp-org:service:ContentDirectory:1"
      ∨ st = "urn:schemas-upnp-org:service:ConnectionManager:1" then
    some { cacheControl := "max-age=1800"
           location := serverAddr ++ "/dlna/device.xml"
           server := "Linux/5.10 UPnP/1.0 DLNATranscoder/1.0"
           st := st
           usn := "uuid:" ++ selfUUID ++ "::upnp:rootdevice" }
  else
    none

/-- A discovered renderer (`DLNADevice`). -/
structure DLNADevice where
  uuid : String
  friendlyName : String
  location : String
  deviceType : String
  lastSeen : Nat
  deriving Repr, DecidableEq

/-- `extractUUID`: everything before the first `::` of the `USN`,
stripped of a `uuid:` marker. -/
def extractUUID (usn : String) : String :=
  let first :=
    match firstOccur usn.toList "::".toList with
    | none => usn.toList
    | some i => usn.toList.take i
  if headOccurs "uuid:".toList first then String.mk (first.drop 5)
  else String.mk first

/-- Registry lookup (`s.devices[uuid]`). -/
def regLookup (reg : List (String × DLNADevice)) (u : String) : Option DLNADevice :=
  (reg.find? (fun p => p.1 = u)).map (fun p => p.2)

/-- Registry insertion of a fresh uuid. -/
def regInsert (reg : List (String × DLNADevice)) (u : String) (d : DLNADevice) :
    List (String × DLNADevice) :=
  reg ++ [(u, d)]

/-- The in-place `LastSeen = time.Now()` bump of an existing entry. -/
def regBump (reg : List (String × DLNADevice)) (u : String) (now : Nat) :
    List (String × DLNADevice) :=
  reg.map (fun p => if p.1 = u then (p.1, { p.2 with lastSeen := now }) else p)

/-- Registry deletion (`delete(s.devices, uuid)`). -/
def regErase (reg : List (String × DLNADevice)) (u : String) :
    List (String × DLNADevice) :=
  reg.filter (fun p => p.1 ≠ u)

/-- The renderer classification of `handleNotify`: four substrings are
looked for in the lower-cased `NT` header and three in the lower-cased
location URL. -/
def notifyIsRenderer (nt location : String) : Bool :=
  let lowerNT := lowerStr nt
  let lowerLoc := lowerStr location
  strContains lowerNT "mediarenderer" || strContains lowerNT "avtransport"
    || strContains lowerNT "renderingcontrol" || strContains lowerNT "tvrenderer"
    || strContains lowerLoc "render" || strContains lowerLoc "tv"
    || strContains lowerLoc "display"

/-- `handleNotify`: classify, extract the uuid, then apply `ssdp:alive`
(insert or bump) or `ssdp:byebye` (delete) to the registry. -/
def handleNotify (now : Nat) (headers : List (String × String))
    (reg : List (String × DLNADevice)) : List (String × DLNADevice) :=
  let nts := headerGetFold headers "NTS" "nts"
  let usn := headerGetFold headers "USN" "usn"
  let location := headerGetFold headers "LOCATION" "location"
  let nt := headerGetFold headers "NT" "nt"
  if notifyIsRenderer nt location = false then reg
  else
    let u := extractUUID usn
    if u = "" then reg
    else if nts = "ssdp:alive" then
      match regLookup reg u with
      | none => regInsert reg u ⟨u, "", location, nt, now⟩
      | some _ => regBump reg u now
    else if nts = "ssdp:byebye" then regErase reg u
    else reg

/-- The renderer classification of `handleSearchResponse`: the same
substring split as `handleNotify` on `ST`/location, plus acceptance of a
literal `ssdp:all` `ST`. -/
def searchRespIsRenderer (st location : String) : Bool :=
  notifyIsRenderer st location || st = "ssdp:all"

/-- `handleSearchResponse`: classify a response to our own M-SEARCH and
insert or bump the renderer. -/
def handleSearchResponse (now : Nat) (headers : List (String × String))
    (reg : List (String × DLNADevice)) : List (String × DLNADevice) :=
  let usn := headerGetFold headers "USN" "usn"
  let location := headerGetFold headers "LOCATION" "location"
  let st := headerGetFold headers "ST" "st"
  if searchRespIsRenderer st location = false then reg
  else
    let u := extractUUID usn
    if u = "" then reg
    else
      match regLookup reg u with
      | none => regInsert reg u ⟨u, "", location, st, now⟩
      | some _ => regBump reg u now

/-- The classification rule exactly as the specification words it: any
of the seven substrings, each looked for case-insensitively in both the
service-type header and the location URL.  Stated only to compare the
specification against `notifyIsRenderer` / `searchRespIsRenderer`. -/
def specClaimedRenderer (serviceType location : String) : Bool :=
  ["mediarenderer", "avtransport", "renderingcontrol", "tvrenderer",
   "render", "tv", "display"].any
    (fun w => strContains (lowerStr serviceType) w || strContains (lowerStr location) w)

/-! ## HLS session manager (backend/internal/transcoder/hls.go) -/

/-- `HLSSession` (the process handle is opaque; a pid stands in). -/
structure HLSSession where
  id : String
  movieID : String
  dir : String
  lastAccessed : Nat
  process : Option Nat
  deriving Repr, DecidableEq

/-- The scratch base directory `NewStreamHandler` picks on a Linux host
with `/dev/shm`. -/
def hlsBaseDir : String := "/dev/shm/dlna-movie-cast-hls"

/-- `HLSManager.GetSession`: scan the session map for the movie id and
bump the found session's last-accessed time in place (the map holds
pointers; the in-place bump is modelled by rewriting the one matching
element, unique under the one-session-per-movie invariant). -/
def getSession (now : Nat) (sessions : List HLSSession) (movieID : String) :
    Option HLSSession × List HLSSession :=
  match sessions.find? (fun s => s.movieID = movieID) with
  | none => (none, sessions)
  | some s =>
    let bumped := { s with lastAccessed := now }
    (some bumped, sessions.map (fun x => if x = s then bumped else x))

/-- `HLSManager.CreateSession`: return the existing session when one
holds the movie id (checking again under the write lock), otherwise
insert a fresh session with a new scratch directory.  The third
component is the scratch directory created, `none` when no directory is
made. -/
def createSession (now : Nat) (fresh : String) (sessions : List HLSSession)
    (movieID : String) : HLSSession × List HLSSession × Option String :=
  match getSession now sessions movieID with
  | (some s, sessions1) => (s, sessions1, none)
  | (none, _) =>
    match sessions.find? (fun s => s.movieID = movieID) with
    | some s => (s, sessions, none)
    | none =>
      let dir := filepathJoin2 hlsBaseDir fresh
      let s : HLSSession := ⟨fresh, movieID, dir, now, none⟩
      (s, sessions ++ [s], some dir)

/-- `CopySegment`'s sanitisation and path resolution: reject a segment
name that differs from its cleaned form, is absolute, or is exactly
`..` (Go returns `os.ErrPermission`), and otherwise resolve
`<base>/<session-id>/<name>`.  The file open/copy is elided: the claim
concerns the resolved path. -/
def copySegmentPath (baseDir sessionID segmentName : String) : Except Unit String :=
  let cleanName := filepathClean segmentName
  if cleanName ≠ segmentName ∨ filepathIsAbs segmentName = true ∨ cleanName = ".." then
    .error ()
  else
    .ok (filepathJoin3 baseDir sessionID cleanName)

/-- An HTTP response as status code and body. -/
structure HTTPResponse where
  status : Nat
  body : String
  deriving Repr, DecidableEq

/-- `StreamHandler.serveHLSPlaylist` (movie lookup, session lookup or
creation, transcoder spawn, playlist poll).  The spawn outcome and the
existence of the playlist file are oracles; the 200 body stands for the
served playlist file. -/
def serveHLSPlaylist (now : Nat) (fresh : String) (movies : List Movie)
    (movieID : String) (spawn : Except String Nat) (playlistOnDisk : Bool)
    (sessions : List HLSSession) : HTTPResponse × List HLSSession :=
  match getSession now sessions movieID with
  | (some _, sessions1) =>
    if playlistOnDisk then (⟨200, "playlist"⟩, sessions1)
    else (⟨503, "Playlist not ready yet"⟩, sessions1)
  | (none, _) =>
    match getMovie movies movieID with
    | none => (⟨404, "Movie not found"⟩, sessions)
    | some _ =>
      let created := createSession now fresh sessions movieID
      match spawn with
      | .error e =>
        (⟨500, "Failed to start HLS transcoding: " ++ e⟩, created.2.1)
      | .ok pid =>
        let withProc := { created.1 with process := some pid }
        let sessions2 := created.2.1.map (fun x => if x = created.1 then withProc else x)
        if playlistOnDisk then (⟨200, "playlist"⟩, sessions2)
        else (⟨503, "Playlist not ready yet"⟩, sessions2)

/-! ## AVTransport client (backend/internal/dlna/avtransport.go) -/

/-- `sendSOAPActionWithResponse`, after the HTTP round trip has produced
a status code and a body: any status other than `http.StatusOK` (200)
becomes the "SOAP action failed" error, a 200 returns the body. -/
def sendSOAPResult (status : Nat) (respBody : String) : Except String String :=
  if status ≠ 200 then
    .error ("SOAP action failed with status " ++ toString status ++ ": " ++ respBody)
  else
    .ok respBody

/-! ## Stream dispatcher (backend/internal/transcoder/stream.go) -/

/-- The compatible-codec loop of `Transcoder.NeedsTranscode`:
`strings.EqualFold` against each of `h264`, `avc`, `avc1`. -/
def codecCompatible (videoCodec : String) : Bool :=
  ["h264", "avc", "avc1"].any (fun c => equalFold videoCodec c)

/-- `Transcoder.NeedsTranscode`: always transcode when a subtitle is to
be burned, otherwise transcode exactly when the codec is not
compatible. -/
def needsTranscodeFn (videoCodec : String) (burnSubtitle : Bool) : Bool :=
  if burnSubtitle then true else !codecCompatible videoCodec

/-- How `ServeHTTP` parses the `subtitle_index` query parameter: absent
means `-1`, otherwise `strconv.Atoi` with a discarded error (`0`). -/
def parseSubtitleIndex (subtitleIndexParam : String) : Int :=
  if subtitleIndexParam = "" then -1 else goAtoi subtitleIndexParam

/-- The three ways `ServeHTTP` can serve a `/stream/{id}` request that
has no `hls/` path element. -/
inductive StreamPlan where
  | redirectHLS
  | directServe
  | transcodePipe
  deriving Repr, DecidableEq

/-- The routing decision of `StreamHandler.ServeHTTP` for
`/stream/{id}` (movie found, no `hls/` path element): `format=hls`
redirects, otherwise the `needsTranscode` chain picks the transcoded
MP4 pipe or the direct byte-range file service. -/
def serveStreamPlan (transcodeParam subtitleParam subtitleIndexParam formatParam
    videoCodec : String) : StreamPlan :=
  let transcode := transcodeParam = "1"
  let subtitleIndex := parseSubtitleIndex subtitleIndexParam
  let needs0 := transcode ∨ subtitleParam ≠ "" ∨ subtitleIndex ≥ 0
  let needs := needs0 ∨
    needsTranscodeFn videoCodec (decide (subtitleParam ≠ "" ∨ subtitleIndex ≥ 0)) = true
  if formatParam = "hls" then .redirectHLS
  else if needs then .transcodePipe
  else .directServe

/-- The response headers `serveTranscodedStream` sets before copying the
transcoder's stdout to the client. -/
def transcodedStreamHeaders : List (String × String) :=
  [("Content-Type", "video/mp4"),
   ("Transfer-Encoding", "chunked"),
   ("Cache-Control", "no-cache"),
   ("transferMode.dlna.org", "Streaming"),
   ("contentFeatures.dlna.org",
    "DLNA.ORG_OP=01;DLNA.ORG_CI=1;DLNA.ORG_FLAGS=01700000000000000000000000000000")]

/-- `getContentType`: MIME type from the file extension. -/
def getContentType (path : String) : String :=
  let e := lowerStr path
  if hasSuffixStr e ".mp4" ∨ hasSuffixStr e ".m4v" then "video/mp4"
  else if hasSuffixStr e ".mkv" then "video/x-matroska"
  else if hasSuffixStr e ".avi" then "video/x-msvideo"
  else if hasSuffixStr e ".webm" then "video/webm"
  else if hasSuffixStr e ".mov" then "video/quicktime"
  else if hasSuffixStr e ".wmv" then "video/x-ms-wmv"
  else if hasSuffixStr e ".ts" ∨ hasSuffixStr e ".m2ts" then "video/mp2t"
  else "video/mp4"

/-! ## Control API (backend/internal/api) -/

/-- `url.QueryEscape` is a Go standard-library collaborator; the subtitle
paths the claims touch pass through unchanged, so it is kept abstract as
the identity. -/
def urlQueryEscape (s : String) : String := s

/-- `handleCast`'s transcoding decision:
`req.Transcode || req.SubtitlePath != "" || req.SubtitleIndex > 0`. -/
def castIsTranscoding (transcode : Bool) (subtitlePath : String)
    (subtitleIndex : Int) : Bool :=
  transcode || subtitlePath ≠ "" || subtitleIndex > 0

/-- The base stream URL `handleCast` chooses before query parameters. -/
def castBaseURL (serverAddr movieID : String) (transcode : Bool)
    (subtitlePath : String) (subtitleIndex : Int) : String :=
  if castIsTranscoding transcode subtitlePath subtitleIndex then
    serverAddr ++ "/stream/" ++ movieID ++ "/hls/playlist.m3u8"
  else
    serverAddr ++ "/stream/" ++ movieID

/-- The full stream URL `handleCast` builds (including the
single-character stringification of `subtitle_index` the source uses). -/
def castStreamURL (serverAddr movieID : String) (transcode : Bool)
    (subtitlePath : String) (subtitleIndex : Int) : String :=
  let params : List String :=
    (if castIsTranscoding transcode subtitlePath subtitleIndex then ["transcode=1"] else [])
      ++ (if subtitlePath ≠ "" then ["subtitle=" ++ urlQueryEscape subtitlePath] else [])
      ++ (if subtitleIndex > 0 then
            ["subtitle_index=" ++ String.mk [Char.ofNat (subtitleIndex.toNat + 48)]]
          else [])
  let base := castBaseURL serverAddr movieID transcode subtitlePath subtitleIndex
  if params ≠ [] then base ++ "?" ++ String.intercalate "&" params else base

/-- One SOAP command issued to the renderer. -/
structure SOAPCall where
  action : String
  arg : String
  deriving Repr, DecidableEq

/-- The tail of `handleCast` once movie and device resolve: build the
stream URL, then issue `SetAVTransportURI` followed by `Play`. -/
def handleCast (serverAddr movieID : String) (transcode : Bool)
    (subtitlePath : String) (subtitleIndex : Int) : String × List SOAPCall :=
  let streamURL := castStreamURL serverAddr movieID transcode subtitlePath subtitleIndex
  (streamURL, [⟨"SetAVTransportURI", streamURL⟩, ⟨"Play", ""⟩])

end DlnaCast

namespace DlnaCast

/-! ## Theorems -/

theorem paginateMovies_eq (movies : List Movie) (start count : Nat) :
    paginateMovies movies start count = (movies.drop start).take count := by
  unfold paginateMovies
  rw [List.drop_take]
  by_cases h : start > movies.length
  · have h1 : start + count > movies.length := by omega
    rw [if_pos h1, if_pos h]
    rw [List.drop_eq_nil_of_le (le_refl _), List.drop_eq_nil_of_le (by omega)]
    simp
  · push_neg at h
    rw [if_neg (not_lt.mpr h)]
    by_cases h2 : start + count > movies.length
    · rw [if_pos h2]
      rw [List.take_of_length_le (by rw [List.length_drop]),
          List.take_of_length_le (by rw [List.length_drop]; omega)]
    · rw [if_neg h2]
      congr 1
      omega

/-- C4: for every `Browse("movies", BrowseDirectChildren, start, count)`
(with a zero `RequestedCount` treated as 100), `buildMoviesList` returns
the movies at positions `[start, min(start+count,total))` of the library
order, `NumberReturned = min(count, total − start)` (truncated
subtraction playing the role of `max(0, total − start)`), and
`TotalMatches = total`; in particular `start ≥ total` yields zero items
with `TotalMatches` still `total`. -/
theorem C4_browse_pagination (serverAddr : String) (movies : List Movie)
    (start count0 : Nat) :
    let count := if count0 = 0 then 100 else count0
    let r := buildMoviesList serverAddr movies start count
    r.2.1 = min count (movies.length - start) ∧
    r.2.2 = movies.length ∧
    r.1 = didlOpen ++
      String.join (((movies.drop start).take count).map (buildMovieItem serverAddr))
      ++ "</DIDL-Lite>" := by
  intro count r
  have hpage : paginateMovies movies start count = (movies.drop start).take count :=
    paginateMovies_eq movies start count
  refine ⟨?_, ?_, ?_⟩
  · show (paginateMovies movies start count).length = _
    rw [hpage, List.length_take, List.length_drop]
  · rfl
  · show didlOpen ++ String.join ((paginateMovies movies start count).map _) ++ _ = _
    rw [hpage]

/-- C8 counterexample: the HTTP status 204 is a 2xx status, yet the SOAP
helper reports "SOAP action failed with status 204" instead of
succeeding, refuting the claim that every 2xx status succeeds. -/
theorem C8_counterexample :
    (200 ≤ 204 ∧ 204 < 300) ∧
    sendSOAPResult 204 "" =
      .error "SOAP action failed with status 204: " := by
  constructor
  · exact ⟨by norm_num, by norm_num⟩
  · rfl

/-- C8 (amended): every AVTransport SOAP operation routed through
`sendSOAPActionWithResponse` fails with "SOAP action failed with status
N" exactly when the renderer's HTTP response status N differs from 200,
and succeeds (returning the response body) exactly for status 200. -/
theorem C8_soap_status (status : Nat) (respBody : String) :
    (sendSOAPResult status respBody =
        .error ("SOAP action failed with status " ++ toString status ++ ": " ++ respBody)
      ↔ status ≠ 200) ∧
    (sendSOAPResult status respBody = .ok respBody ↔ status = 200) := by
  unfold sendSOAPResult
  by_cases h : status = 200
  · subst h
    simp
  · rw [if_pos h]
    constructor
    · exact ⟨fun _ => h, fun _ => rfl⟩
    · constructor
      · intro hcon
        cases hcon
      · intro hcon
        exact absurd hcon h

/-- C6: the SSDP peer answers an M-SEARCH datagram with a unicast 200
response iff the `ST` header is one of the five recognised search
targets, and the response carries `CACHE-CONTROL: max-age=1800`,
`LOCATION: <server-base>/dlna/device.xml`, the `ST` value echoed, and
`USN: uuid:<self-uuid>::upnp:rootdevice`. -/
theorem C6_msearch_response (selfUUID serverAddr : String)
    (headers : List (String × String)) :
    ((handleSearch selfUUID serverAddr headers).isSome ↔
      (headerGetFold headers "ST" "st" = "ssdp:all"
        ∨ headerGetFold headers "ST" "st" = "upnp:rootdevice"
        ∨ headerGetFold headers "ST" "st" = "urn:schemas-upnp-org:device:MediaServer:1"
        ∨ headerGetFold headers "ST" "st" = "urn:schemas-upnp-org:service:ContentDirectory:1"
        ∨ headerGetFold headers "ST" "st" =
            "urn:schemas-upnp-org:service:ConnectionManager:1")) ∧
    (∀ r, handleSearch selfUUID serverAddr headers = some r →
      r.cacheControl = "max-age=1800" ∧
      r.location = serverAddr ++ "/dlna/device.xml" ∧
      r.st = headerGetFold headers "ST" "st" ∧
      r.usn = "uuid:" ++ selfUUID ++ "::upnp:rootdevice") := by
  set st := headerGetFold headers "ST" "st" with hst
  unfold handleSearch
  by_cases h : (st = "ssdp:all" ∨ st = "upnp:rootdevice"
      ∨ st = "urn:schemas-upnp-org:device:MediaServer:1"
      ∨ st = "urn:schemas-upnp-org:service:ContentDirectory:1"
      ∨ st = "urn:schemas-upnp-org:service:ConnectionManager:1")
  · rw [if_pos h]
    refine ⟨⟨fun _ => h, fun _ => rfl⟩, ?_⟩
    intro r hr
    injection hr with hr
    subst hr
    exact ⟨rfl, rfl, rfl, rfl⟩
  · rw [if_neg h]
    refine ⟨⟨fun hcon => absurd hcon (by simp), fun hcon => absurd hcon h⟩, ?_⟩
    intro r hr
    cases hr

theorem C6_msearch_response_witness :
    (handleSearch "self-uuid" "http://192.168.0.2:8080"
      [("ST", "ssdp:all")]).isSome ∧
    (SearchResponse.mk "max-age=1800" "http://192.168.0.2:8080/dlna/device.xml"
        "Linux/5.10 UPnP/1.0 DLNATranscoder/1.0" "ssdp:all"
        "uuid:self-uuid::upnp:rootdevice").usn = "uuid:self-uuid::upnp:rootdevice" := by
  have h := C6_msearch_response "self-uuid" "http://192.168.0.2:8080" [("ST", "ssdp:all")]
  exact ⟨h.1.mpr (Or.inl (by decide)), (h.2 _ (by decide)).2.2.2⟩

theorem serve_needs_iff (t s si codec : String) :
    ((t = "1" ∨ s ≠ "" ∨ parseSubtitleIndex si ≥ 0) ∨
      needsTranscodeFn codec (decide (s ≠ "" ∨ parseSubtitleIndex si ≥ 0)) = true) ↔
    ¬(t ≠ "1" ∧ s = "" ∧ parseSubtitleIndex si < 0 ∧ codecCompatible codec = true) := by
  unfold needsTranscodeFn
  by_cases h2 : s = "" <;>
    by_cases h3 : parseSubtitleIndex si ≥ 0 <;>
      simp only [h2, h3, ne_eq, not_true_eq_false, not_false_eq_true, false_or, true_or,
        or_true, or_false, decide_eq_true_eq, if_pos, if_neg] <;>
      by_cases h1 : t = "1" <;>
        by_cases h4 : codecCompatible codec = true <;>
          simp_all

/-- C5: a `GET /stream/{id}` request (no `hls/` path element, movie
found) is served by direct byte-range file service iff the `transcode`
query flag is not "1", no subtitle path is given, no (non-negative)
embedded subtitle index parses from `subtitle_index`, the codec passes
the case-insensitive {h264, avc, avc1} check, and `format=hls` is not
present; in every other non-redirect case it is the transcoded MP4
pipe, whose response headers include `Content-Type: video/mp4` and
`Transfer-Encoding: chunked`. -/
theorem C5_stream_dispatch (t s si f codec : String) :
    (serveStreamPlan t s si f codec = .directServe ↔
      (f ≠ "hls" ∧ t ≠ "1" ∧ s = "" ∧ parseSubtitleIndex si < 0 ∧
        codecCompatible codec = true)) ∧
    (serveStreamPlan t s si f codec = .transcodePipe ↔
      (f ≠ "hls" ∧ ¬(t ≠ "1" ∧ s = "" ∧ parseSubtitleIndex si < 0 ∧
        codecCompatible codec = true))) ∧
    ("Content-Type", "video/mp4") ∈ transcodedStreamHeaders ∧
    ("Transfer-Encoding", "chunked") ∈ transcodedStreamHeaders := by
  refine ⟨?_, ?_, by simp [transcodedStreamHeaders], by simp [transcodedStreamHeaders]⟩
  all_goals
    unfold serveStreamPlan
    by_cases hf : f = "hls"
  · rw [if_pos hf]
    simp [hf]
  · rw [if_neg hf]
    by_cases hn : ((t = "1" ∨ s ≠ "" ∨ parseSubtitleIndex si ≥ 0) ∨
        needsTranscodeFn codec (decide (s ≠ "" ∨ parseSubtitleIndex si ≥ 0)) = true)
    · rw [if_pos hn]
      have hd := (serve_needs_iff t s si codec).mp hn
      simp [hd]
    · rw [if_neg hn]
      have hd := not_not.mp (fun hcon => hn ((serve_needs_iff t s si codec).mpr hcon))
      simp [hf, hd]
  · rw [if_pos hf]
    simp [hf]
  · rw [if_neg hf]
    by_cases hn : ((t = "1" ∨ s ≠ "" ∨ parseSubtitleIndex si ≥ 0) ∨
        needsTranscodeFn codec (decide (s ≠ "" ∨ parseSubtitleIndex si ≥ 0)) = true)
    · rw [if_pos hn]
      have hd := (serve_needs_iff t s si codec).mp hn
      simp [hf, hd]
    · rw [if_neg hn]
      have hd := not_not.mp (fun hcon => hn ((serve_needs_iff t s si codec).mpr hcon))
      simp [hf, hd]

/-- C9 counterexample: a cast request with `transcode` false, no
subtitle path, and embedded `subtitle_index` 0 (a valid index the claim
says selects the HLS playlist URL) gets the direct URL: the decision in
`handleCast` tests `SubtitleIndex > 0`, not `≥ 0`. -/
theorem C9_counterexample :
    castStreamURL "http://h" "m1" false "" 0 = "http://h/stream/m1" ∧
    "http://h/stream/m1" ≠ "http://h/stream/m1/hls/playlist.m3u8" := by
  constructor
  · rfl
  · decide

theorem cast_direct_ne_hls (serverAddr movieID : String) :
    serverAddr ++ "/stream/" ++ movieID ≠
      serverAddr ++ "/stream/" ++ movieID ++ "/hls/playlist.m3u8" := by
  intro hcon
  have hl := congrArg String.length hcon
  rw [String.length_append] at hl
  simp at hl
  exact absurd hl (by decide)

/-- C9 (amended): `handleCast` hands the renderer the HLS playlist URL
`/stream/{id}/hls/playlist.m3u8` iff `transcode` is true, a non-empty
`subtitle_path` is given, or `subtitle_index` is strictly positive
(index 0 is indistinguishable from an absent field in the JSON body and
selects the direct URL); otherwise the direct `/stream/{id}` URL; it
then issues `SetAVTransportURI` followed by `Play`. -/
theorem C9_cast_url (serverAddr movieID : String) (transcode : Bool)
    (subtitlePath : String) (subtitleIndex : Int) :
    (castBaseURL serverAddr movieID transcode subtitlePath subtitleIndex
        = serverAddr ++ "/stream/" ++ movieID ++ "/hls/playlist.m3u8"
      ↔ (transcode = true ∨ subtitlePath ≠ "" ∨ subtitleIndex > 0)) ∧
    (castBaseURL serverAddr movieID transcode subtitlePath subtitleIndex
        = serverAddr ++ "/stream/" ++ movieID
      ↔ ¬(transcode = true ∨ subtitlePath ≠ "" ∨ subtitleIndex > 0)) ∧
    (handleCast serverAddr movieID transcode subtitlePath subtitleIndex).2 =
      [⟨"SetAVTransportURI",
        (handleCast serverAddr movieID transcode subtitlePath subtitleIndex).1⟩,
       ⟨"Play", ""⟩] := by
  have hcond : castIsTranscoding transcode subtitlePath subtitleIndex = true ↔
      (transcode = true ∨ subtitlePath ≠ "" ∨ subtitleIndex > 0) := by
    simp [castIsTranscoding, or_assoc]
  refine ⟨?_, ?_, rfl⟩
  · unfold castBaseURL
    by_cases h : castIsTranscoding transcode subtitlePath subtitleIndex = true
    · rw [if_pos h]
      exact ⟨fun _ => hcond.mp h, fun _ => rfl⟩
    · rw [if_neg h]
      constructor
      · intro hcon
        exact absurd hcon (cast_direct_ne_hls serverAddr movieID)
      · intro hcon
        exact absurd (hcond.mpr hcon) h
  · unfold castBaseURL
    by_cases h : castIsTranscoding transcode subtitlePath subtitleIndex = true
    · rw [if_pos h]
      constructor
      · intro hcon
        exact absurd hcon.symm (cast_direct_ne_hls serverAddr movieID)
      · intro hcon
        exact absurd (hcond.mp h) hcon
    · rw [if_neg h]
      refine ⟨fun _ => fun hcon => h (hcond.mpr hcon), fun _ => rfl⟩

theorem regLookup_insert_self (reg : List (String × DLNADevice)) (u : String)
    (d : DLNADevice) (h : regLookup reg u = none) :
    regLookup (regInsert reg u d) u = some d := by
  unfold regLookup regInsert
  rw [List.find?_append]
  have hfind : reg.find? (fun p => p.1 = u) = none := by
    unfold regLookup at h
    rcases hf : reg.find? (fun p => p.1 = u) with _ | p
    · exact hf
    · rw [hf] at h
      simp at h
  rw [hfind]
  simp

theorem regLookup_bump_isSome (reg : List (String × DLNADevice)) (u : String)
    (now : Nat) (h : (regLookup reg u).isSome) :
    (regLookup (regBump reg u now) u).isSome := by
  induction reg with
  | nil => simp [regLookup] at h
  | cons p t ih =>
    by_cases hp : p.1 = u
    · simp [regLookup, regBump, hp]
    · simp only [regLookup, regBump, List.map_cons, if_neg hp] at h ⊢
      rw [List.find?_cons_of_neg _ (by simpa using hp)] at h ⊢
      exact ih h

/-- C7 counterexample: a NOTIFY alive announcement whose `NT` header is
`X-Render` (so the substring `render` occurs case-insensitively in the
service-type header, which the claim says suffices) with an empty
location is dropped by the code: `handleNotify` only looks for
`render`, `tv` and `display` in the location URL, not in `NT`, and the
registry stays unchanged. -/
theorem C7_counterexample :
    specClaimedRenderer "X-Render" "" = true ∧
    handleNotify 7
      [("NT", "X-Render"), ("NTS", "ssdp:alive"), ("USN", "uuid:abc"), ("LOCATION", "")]
      [] = [] := by
  constructor
  · decide
  · decide

/-- C7 (amended): an announcement is accepted into the registry iff the
code's asymmetric classification holds — one of `mediarenderer`,
`avtransport`, `renderingcontrol`, `tvrenderer` occurring
case-insensitively in the service-type header (`NT` for NOTIFY, `ST`
for a search response), or one of `render`, `tv`, `display` occurring
case-insensitively in the location URL, a search response with `ST`
exactly `ssdp:all` also being accepted — provided the `USN` yields a
non-empty uuid and (for NOTIFY) `NTS` is `ssdp:alive`; an announcement
failing the classification leaves the registry unchanged. -/
theorem C7_renderer_classification (now : Nat) (headers : List (String × String))
    (reg : List (String × DLNADevice)) :
    let nt := headerGetFold headers "NT" "nt"
    let st := headerGetFold headers "ST" "st"
    let nts := headerGetFold headers "NTS" "nts"
    let usn := headerGetFold headers "USN" "usn"
    let location := headerGetFold headers "LOCATION" "location"
    (notifyIsRenderer nt location = false → handleNotify now headers reg = reg) ∧
    (notifyIsRenderer nt location = true → nts = "ssdp:alive" →
      extractUUID usn ≠ "" →
      (regLookup (handleNotify now headers reg) (extractUUID usn)).isSome) ∧
    (searchRespIsRenderer st location = false →
      handleSearchResponse now headers reg = reg) ∧
    (searchRespIsRenderer st location = true → extractUUID usn ≠ "" →
      (regLookup (handleSearchResponse now headers reg) (extractUUID usn)).isSome) := by
  intro nt st nts usn location
  refine ⟨?_, ?_, ?_, ?_⟩
  · intro h
    unfold handleNotify
    rw [if_pos h]
  · intro h hnts hu
    unfold handleNotify
    rw [if_neg (by simp [h]), if_neg hu, if_pos hnts]
    rcases hl : regLookup reg (extractUUID usn) with _ | d
    · rw [regLookup_insert_self reg _ _ hl]
      rfl
    · exact regLookup_bump_isSome reg _ now (by simp [hl])
  · intro h
    unfold handleSearchResponse
    rw [if_pos h]
  · intro h hu
    unfold handleSearchResponse
    rw [if_neg (by simp [h]), if_neg hu]
    rcases hl : regLookup reg (extractUUID usn) with _ | d
    · rw [regLookup_insert_self reg _ _ hl]
      rfl
    · exact regLookup_bump_isSome reg _ now (by simp [hl])

theorem C7_renderer_classification_witness :
    (regLookup
      (handleNotify 7
        [("NT", "urn:schemas-upnp-org:device:MediaRenderer:1"),
         ("NTS", "ssdp:alive"), ("USN", "uuid:abc::upnp:rootdevice"),
         ("LOCATION", "http://10.0.0.9/desc.xml")]
        []) "abc").isSome := by
  have h := C7_renderer_classification 7
    [("NT", "urn:schemas-upnp-org:device:MediaRenderer:1"),
     ("NTS", "ssdp:alive"), ("USN", "uuid:abc::upnp:rootdevice"),
     ("LOCATION", "http://10.0.0.9/desc.xml")] []
  have h2 := h.2.1 (by decide) (by decide) (by decide)
  simpa using h2

theorem find?_movie_unique (sessions : List HLSSession) (m : String) (s₀ : HLSSession)
    (hinv : sessions.Pairwise (fun a b => a.movieID ≠ b.movieID))
    (hmem : s₀ ∈ sessions) (hm : s₀.movieID = m) :
    sessions.find? (fun s => s.movieID = m) = some s₀ := by
  induction sessions with
  | nil => cases hmem
  | cons h t ih =>
    rcases List.mem_cons.mp hmem with heq | htl
    · subst heq
      exact List.find?_cons_of_pos _ (by simpa using hm)
    · have hne : h.movieID ≠ s₀.movieID :=
        (List.pairwise_cons.mp hinv).1 s₀ htl
      rw [List.find?_cons_of_neg _ (by simp [hm ▸ hne]),
        ih (List.pairwise_cons.mp hinv).2 htl]

theorem bump_keeps_fields (s₀ x : HLSSession) (now : Nat) :
    ((if x = s₀ then { s₀ with lastAccessed := now } else x)).movieID = x.movieID ∧
    ((if x = s₀ then { s₀ with lastAccessed := now } else x)).id = x.id := by
  by_cases h : x = s₀ <;> simp [h]

/-- C2: the session map never holds two sessions with the same movie
id (`CreateSession` preserves the pairwise-distinct-movie invariant),
and a `CreateSession(m)` or `GetSession(m)` call made while a session
for `m` exists returns that session (same session id), bumps its
last-accessed time, creates no scratch directory, and adds no map
entry. -/
theorem C2_one_session_per_movie (now : Nat) (fresh : String)
    (sessions : List HLSSession) (m : String)
    (hinv : sessions.Pairwise (fun a b => a.movieID ≠ b.movieID)) :
    ((createSession now fresh sessions m).2.1.Pairwise
      (fun a b => a.movieID ≠ b.movieID)) ∧
    (∀ s₀ ∈ sessions, s₀.movieID = m →
      (createSession now fresh sessions m).1.id = s₀.id ∧
      (createSession now fresh sessions m).2.2 = none ∧
      (createSession now fresh sessions m).2.1.map (fun s => s.id) =
        sessions.map (fun s => s.id) ∧
      (getSession now sessions m).1 = some { s₀ with lastAccessed := now } ∧
      (getSession now sessions m).2.map (fun s => s.id) =
        sessions.map (fun s => s.id)) := by
  constructor
  · rcases hfind : sessions.find? (fun s => s.movieID = m) with _ | s
    · have hnone : ∀ s ∈ sessions, s.movieID ≠ m := by
        intro s hs
        have := List.find?_eq_none.mp hfind s hs
        simpa using this
      unfold createSession getSession
      rw [hfind]
      simp only [hfind]
      rw [List.pairwise_append]
      refine ⟨hinv, by simp, ?_⟩
      intro a ha b hb
      simp only [List.mem_singleton] at hb
      subst hb
      exact hnone a ha
    · unfold createSession getSession
      rw [hfind]
      simp only []
      rw [List.pairwise_map]
      refine hinv.imp_of_mem ?_
      intro a b _ _ hab
      rw [(bump_keeps_fields s a now).1, (bump_keeps_fields s b now).1]
      exact hab
  · intro s₀ hmem hm
    have hfind := find?_movie_unique sessions m s₀ hinv hmem hm
    have hget : getSession now sessions m =
        (some { s₀ with lastAccessed := now },
          sessions.map (fun x => if x = s₀ then { s₀ with lastAccessed := now } else x)) := by
      unfold getSession
      rw [hfind]
    have hcreate : createSession now fresh sessions m =
        ({ s₀ with lastAccessed := now },
          sessions.map (fun x => if x = s₀ then { s₀ with lastAccessed := now } else x),
          none) := by
      unfold createSession
      rw [hget]
    have hids : (sessions.map
        (fun x => if x = s₀ then { s₀ with lastAccessed := now } else x)).map
          (fun s => s.id) = sessions.map (fun s => s.id) := by
      rw [List.map_map]
      exact List.map_congr_left (fun a _ => (bump_keeps_fields s₀ a now).2)
    rw [hcreate, hget]
    exact ⟨rfl, rfl, hids, rfl, hids⟩

theorem C2_one_session_per_movie_witness :
    let s₀ : HLSSession := ⟨"sid0", "m1", "/dev/shm/dlna-movie-cast-hls/sid0", 3, none⟩
    (createSession 9 "sid-fresh" [s₀] "m1").1.id = "sid0" ∧
    (createSession 9 "sid-fresh" [s₀] "m1").2.2 = none ∧
    (getSession 9 [s₀] "m1").1 = some { s₀ with lastAccessed := 9 } := by
  intro s₀
  have h := C2_one_session_per_movie 9 "sid-fresh" [s₀] "m1" (by simp)
  have h2 := h.2 s₀ (by simp) rfl
  exact ⟨h2.1, h2.2.1, h2.2.2.2.1⟩

theorem find?_append_none {α : Type} (p : α → Bool) (l₁ l₂ : List α)
    (h : l₁.find? p = none) : (l₁ ++ l₂).find? p = l₂.find? p := by
  rw [List.find?_append, h, Option.none_or]

/-- C3 counterexample: with an empty session map, a playlist request for
movie `m1` whose transcoder spawn fails gets the HTTP 500 with the
subprocess error message (that much of the claim is right), but the
half-created session for `m1` is still in the session map afterwards,
refuting the claim that no such session remains. -/
theorem C3_counterexample :
    let mv : Movie := ⟨"m1", "T", 100, "/f.mkv", 5, "hevc", 1920, 1080⟩
    let r := serveHLSPlaylist 0 "sid1" [mv] "m1" (.error "boom") false []
    r.1 = ⟨500, "Failed to start HLS transcoding: boom"⟩ ∧
    (r.2.find? (fun s => s.movieID = "m1")).isSome := by
  constructor
  · decide
  · decide

/-- C3 (amended): if the transcoder fails to spawn during a playlist
request for a movie with no existing session, the server responds HTTP
500 carrying the subprocess error message, but the half-created session
(with no process handle) remains in the session map, so the next
playlist request for the same movie returns that session instead of
creating a fresh one (until idle GC evicts it). -/
theorem C3_spawn_failure (now : Nat) (fresh : String) (movies : List Movie)
    (movieID e : String) (pl : Bool) (sessions : List HLSSession)
    (hnone : sessions.find? (fun s => s.movieID = movieID) = none)
    (hmv : (getMovie movies movieID).isSome) :
    (serveHLSPlaylist now fresh movies movieID (.error e) pl sessions).1 =
      ⟨500, "Failed to start HLS transcoding: " ++ e⟩ ∧
    ((serveHLSPlaylist now fresh movies movieID (.error e) pl sessions).2.find?
      (fun s => s.movieID = movieID)).isSome := by
  obtain ⟨mv, hmv2⟩ := Option.isSome_iff_exists.mp hmv
  unfold serveHLSPlaylist getSession
  rw [hnone, hmv2]
  unfold createSession getSession
  rw [hnone]
  simp only [hnone]
  constructor
  · trivial
  · rw [find?_append_none _ _ _ hnone]
    simp

theorem C3_spawn_failure_witness :
    let mv : Movie := ⟨"m2", "T2", 90, "/g.mkv", 7, "vp9", 1280, 720⟩
    (serveHLSPlaylist 4 "sid9" [mv] "m2" (.error "exec failed") true []).1 =
      ⟨500, "Failed to start HLS transcoding: exec failed"⟩ ∧
    ((serveHLSPlaylist 4 "sid9" [mv] "m2" (.error "exec failed") true []).2.find?
      (fun s => s.movieID = "m2")).isSome := by
  intro mv
  exact C3_spawn_failure 4 "sid9" [mv] "m2" "exec failed" true [] (by decide) (by decide)

theorem firstOccur_none_drop (hay needle : List Char) (n : Nat)
    (h : firstOccur hay needle = none) : firstOccur (hay.drop n) needle = none := by
  induction hay generalizing n with
  | nil => simpa using h
  | cons c hs ih =>
    cases n with
    | zero => simpa using h
    | succ n =>
      rw [List.drop_succ_cons]
      apply ih
      unfold firstOccur at h
      by_cases hh : headOccurs needle (c :: hs)
      · rw [if_pos hh] at h
        cases h
      · rw [if_neg hh] at h
        exact Option.map_eq_none.mp h

/-- C10: ContentDirectory Browse parameter extraction is total — a
missing opening tag, or a tag never closed anywhere in the body, makes
`extractXMLValue` return the empty string rather than fail — and a
Browse whose `ObjectID` names no known object (the empty id included,
since no movie carries it) still produces a well-formed
`BrowseResponse` with the empty DIDL-Lite document,
`NumberReturned = 0` and `TotalMatches = 0`, not an HTTP error. -/
theorem C10_browse_total (serverAddr : String) (movies : List Movie) (updateID : Nat)
    (soapAction body tag : String) :
    (strContains body ("<" ++ tag ++ ">") = false → extractXMLValue body tag = "") ∧
    (strContains body ("</" ++ tag ++ ">") = false → extractXMLValue body tag = "") ∧
    (strContains soapAction "Browse" = true →
      getMovie movies (extractXMLValue body "ObjectID") = none →
      extractXMLValue body "ObjectID" ≠ "0" →
      extractXMLValue body "ObjectID" ≠ "movies" →
      handleControl serverAddr movies updateID soapAction body =
        .ok (wrapBrowseResponse emptyDidl 0 0 updateID)) := by
  refine ⟨?_, ?_, ?_⟩
  · intro h
    have hnone : firstOccur body.toList ("<" ++ tag ++ ">").toList = none := by
      rcases ho : firstOccur body.toList ("<" ++ tag ++ ">").toList with _ | s
      · rfl
      · unfold strContains at h
        rw [ho] at h
        cases h
    unfold extractXMLValue
    dsimp only
    split
    · rfl
    next s hs =>
      rw [hnone] at hs
      cases hs
  · intro h
    have hnone : firstOccur body.toList ("</" ++ tag ++ ">").toList = none := by
      rcases ho : firstOccur body.toList ("</" ++ tag ++ ">").toList with _ | s
      · rfl
      · unfold strContains at h
        rw [ho] at h
        cases h
    unfold extractXMLValue
    dsimp only
    split
    · rfl
    next s hs =>
      split
      · rfl
      next e he =>
        rw [firstOccur_none_drop _ _ _ hnone] at he
        cases he
  · intro hB hget h0 hm
    simp only [handleControl, hB, if_true]
    simp only [handleBrowse, if_neg h0, if_neg hm]
    simp only [buildItemMetadata, hget]

theorem C10_browse_total_witness :
    extractXMLValue "<ObjectID>zz</ObjectID>" "Filter" = "" ∧
    handleControl "http://h" [] 1
      "urn:schemas-upnp-org:service:ContentDirectory:1#Browse"
      "<ObjectID>zz</ObjectID>" = .ok (wrapBrowseResponse emptyDidl 0 0 1) := by
  have h := C10_browse_total "http://h" [] 1
    "urn:schemas-upnp-org:service:ContentDirectory:1#Browse"
    "<ObjectID>zz</ObjectID>" "Filter"
  exact ⟨h.1 (by decide), h.2.2 (by decide) (by decide) (by decide) (by decide)⟩

theorem splitOnChar_no_sep (sep : Char) (xs : List Char) (h : sep ∉ xs) :
    splitOnChar sep xs = [xs] := by
  induction xs with
  | nil => rfl
  | cons c cs ih =>
    have hc : ¬ c = sep := fun he => h (by simp [he])
    have ht : sep ∉ cs := fun hm => h (List.mem_cons_of_mem _ hm)
    simp only [splitOnChar, ih ht, if_neg hc]

theorem splitOnChar_append (sep : Char) (xs ys : List Char) (h : sep ∉ xs) :
    splitOnChar sep (xs ++ sep :: ys) = xs :: splitOnChar sep ys := by
  induction xs with
  | nil => simp [splitOnChar]
  | cons c cs ih =>
    have hc : ¬ c = sep := fun he => h (by simp [he])
    have ht : sep ∉ cs := fun hm => h (List.mem_cons_of_mem _ hm)
    simp only [List.cons_append, splitOnChar, List.append_eq, ih ht, if_neg hc]

theorem strMk_toList (s : String) : String.mk s.toList = s := rfl

theorem cleanCore_plain (cs : List Char) (h1 : cs ≠ []) (h2 : cs ≠ ['.'])
    (h3 : cs ≠ ['.', '.']) (hs : '/' ∉ cs) : filepathCleanCore cs = cs := by
  cases cs with
  | nil => cases h1 rfl
  | cons c cs =>
    have hc : ¬ c = '/' := fun he => hs (by simp [he])
    unfold filepathCleanCore
    dsimp only
    rw [splitOnChar_no_sep '/' (c :: cs) hs]
    rw [List.foldl_cons, List.foldl_nil]
    rw [show cleanStep (decide (c = '/')) [] (c :: cs) = [c :: cs] by
      unfold cleanStep
      rw [if_neg (by simp [h2]), if_neg h3]
      rfl]
    rw [show joinSlash [c :: cs] = c :: cs from rfl]
    rw [if_neg (by simpa using hc), if_neg (by simp)]

theorem toList_path3 (a b c : String) :
    (a ++ "/" ++ b ++ "/" ++ c).toList = a.toList ++ '/' :: (b.toList ++ '/' :: c.toList) := by
  show (a ++ "/" ++ b ++ "/" ++ c).data = a.data ++ '/' :: (b.data ++ '/' :: c.data)
  simp only [String.data_append, List.append_assoc]
  rfl

theorem cleanCore_base_sid_name (sid name : List Char)
    (hsid1 : sid ≠ []) (hsid2 : sid ≠ ['.']) (hsid3 : sid ≠ ['.', '.'])
    (hsid4 : '/' ∉ sid)
    (hn1 : name ≠ []) (hn2 : name ≠ ['.']) (hn3 : name ≠ ['.', '.'])
    (hn4 : '/' ∉ name) :
    filepathCleanCore ('/' :: ("dev".toList ++ '/' :: ("shm".toList ++ '/' ::
        ("dlna-movie-cast-hls".toList ++ '/' :: (sid ++ '/' :: name))))) =
      '/' :: ("dev".toList ++ '/' :: ("shm".toList ++ '/' ::
        ("dlna-movie-cast-hls".toList ++ '/' :: (sid ++ '/' :: name)))) := by
  unfold filepathCleanCore
  dsimp only
  rw [show ('/' :: ("dev".toList ++ '/' :: ("shm".toList ++ '/' ::
      ("dlna-movie-cast-hls".toList ++ '/' :: (sid ++ '/' :: name))))) =
      ([] : List Char) ++ '/' :: ("dev".toList ++ '/' :: ("shm".toList ++ '/' ::
      ("dlna-movie-cast-hls".toList ++ '/' :: (sid ++ '/' :: name)))) from rfl]
  rw [splitOnChar_append '/' [] _ (by simp)]
  rw [splitOnChar_append '/' "dev".toList _ (by decide)]
  rw [splitOnChar_append '/' "shm".toList _ (by decide)]
  rw [splitOnChar_append '/' "dlna-movie-cast-hls".toList _ (by decide)]
  rw [splitOnChar_append '/' sid _ hsid4]
  rw [splitOnChar_no_sep '/' name hn4]
  rw [List.foldl_cons, List.foldl_cons, List.foldl_cons, List.foldl_cons,
    List.foldl_cons, List.foldl_cons, List.foldl_nil]
  rw [show cleanStep (decide ('/' = '/')) [] [] = [] from by decide]
  rw [show cleanStep (decide ('/' = '/')) [] "dev".toList = ["dev".toList] from by decide]
  rw [show cleanStep (decide ('/' = '/')) ["dev".toList] "shm".toList =
    ["dev".toList, "shm".toList] from by decide]
  rw [show cleanStep (decide ('/' = '/')) ["dev".toList, "shm".toList]
    "dlna-movie-cast-hls".toList =
    ["dev".toList, "shm".toList, "dlna-movie-cast-hls".toList] from by decide]
  rw [show cleanStep (decide ('/' = '/'))
      ["dev".toList, "shm".toList, "dlna-movie-cast-hls".toList] sid =
      ["dev".toList, "shm".toList, "dlna-movie-cast-hls".toList] ++ [sid] by
    unfold cleanStep
    rw [if_neg (by simp [hsid1, hsid2]), if_neg hsid3]]
  rw [show (["dev".toList, "shm".toList, "dlna-movie-cast-hls".toList] ++ [sid] :
      List (List Char)) =
      ["dev".toList, "shm".toList, "dlna-movie-cast-hls".toList, sid] from by simp]
  rw [show cleanStep (decide ('/' = '/'))
      ["dev".toList, "shm".toList, "dlna-movie-cast-hls".toList, sid] name =
      ["dev".toList, "shm".toList, "dlna-movie-cast-hls".toList, sid] ++ [name] by
    unfold cleanStep
    rw [if_neg (by simp [hn1, hn2]), if_neg hn3]]
  rw [show (["dev".toList, "shm".toList, "dlna-movie-cast-hls".toList, sid] ++ [name] :
      List (List Char)) =
      ["dev".toList, "shm".toList, "dlna-movie-cast-hls".toList, sid, name] from by simp]
  rw [if_pos (by decide)]
  rfl

/-- C1 counterexample: the segment name `../../x` contains `..`, which
the claim says the sanitisation rejects, yet `CopySegment` accepts it
(`filepath.Clean` leaves it unchanged, it is not absolute and not the
literal `..`) and resolves it to `/dev/shm/x`, a path outside the
session's scratch directory. -/
theorem C1_counterexample :
    strContains "../../x" ".." = true ∧
    copySegmentPath "/dev/shm/dlna-movie-cast-hls" "sess" "../../x" =
      .ok "/dev/shm/x" ∧
    ¬ pathStrictlyUnder "/dev/shm/dlna-movie-cast-hls/sess" "/dev/shm/x" := by
  refine ⟨by decide, by rfl, ?_⟩
  rintro ⟨rest, hne, h⟩
  have hl := congrArg List.length h
  rw [List.length_append] at hl
  have h10 : ("/dev/shm/x" : String).toList.length = 10 := by decide
  have h33 : ("/dev/shm/dlna-movie-cast-hls/sess" : String).toList.length = 33 := by decide
  rw [h10, h33, List.length_cons] at hl
  omega

/-- C1 (amended): the sanitisation in `CopySegment` rejects any segment
name that is absolute, differs from its `filepath.Clean`-ed form, or is
exactly `..`; names containing `..` that are already clean (such as
`../../x`) pass, but for every segment request reaching `CopySegment`
through the HTTP route — whose path split yields a filename with no `/`
that is none of ``, `.`, `..` — the resolved path
`<base>/<session-id>/<filename>` lies strictly under the session's
scratch directory. -/
theorem C1_segment_path (sid name : String)
    (hsid1 : sid.toList ≠ []) (hsid2 : sid.toList ≠ ['.'])
    (hsid3 : sid.toList ≠ ['.', '.']) (hsid4 : '/' ∉ sid.toList)
    (hn1 : name.toList ≠ []) (hn2 : name.toList ≠ ['.'])
    (hn3 : name.toList ≠ ['.', '.']) (hn4 : '/' ∉ name.toList) :
    copySegmentPath hlsBaseDir sid name =
      .ok (hlsBaseDir ++ "/" ++ sid ++ "/" ++ name) ∧
    pathStrictlyUnder (hlsBaseDir ++ "/" ++ sid)
      (hlsBaseDir ++ "/" ++ sid ++ "/" ++ name) := by
  have hclean : filepathClean name = name := by
    unfold filepathClean
    rw [cleanCore_plain name.toList hn1 hn2 hn3 hn4, strMk_toList]
  have habs : filepathIsAbs name = false := by
    unfold filepathIsAbs hasGoPrefix
    rcases hx : name.toList with _ | ⟨c, cs⟩
    · cases hn1 hx
    · have hc : ¬ ('/' = c) := fun he => hn4 (by rw [hx, ← he]; exact List.mem_cons_self _ _)
      simp [headOccurs, hc]
  have hdots : name ≠ ".." := by
    intro he
    exact hn3 (by rw [he]; rfl)
  have hbase : (hlsBaseDir : String).toList =
      '/' :: ("dev".toList ++ '/' :: ("shm".toList ++ '/' ::
        "dlna-movie-cast-hls".toList)) := by decide
  have hbig : (hlsBaseDir ++ "/" ++ sid ++ "/" ++ name).toList =
      '/' :: ("dev".toList ++ '/' :: ("shm".toList ++ '/' ::
        ("dlna-movie-cast-hls".toList ++ '/' :: (sid.toList ++ '/' :: name.toList)))) := by
    rw [toList_path3, hbase]
    simp [List.append_assoc]
  have hjoin : filepathJoin3 hlsBaseDir sid name =
      hlsBaseDir ++ "/" ++ sid ++ "/" ++ name := by
    unfold filepathJoin3 filepathClean
    rw [hbig,
      cleanCore_base_sid_name sid.toList name.toList hsid1 hsid2 hsid3 hsid4 hn1 hn2 hn3 hn4,
      ← hbig, strMk_toList]
  constructor
  · unfold copySegmentPath
    rw [if_neg (by
      push_neg
      refine ⟨?_, by simp [habs], by rw [hclean]; exact hdots⟩
      rw [hclean])]
    rw [hclean, hjoin]
  · refine ⟨name.toList, hn1, ?_⟩
    have hdir : (hlsBaseDir ++ "/" ++ sid).toList = hlsBaseDir.toList ++ '/' :: sid.toList := by
      show (hlsBaseDir ++ "/" ++ sid).data = hlsBaseDir.data ++ '/' :: sid.data
      simp only [String.data_append, List.append_assoc]
      rfl
    rw [hbig, hdir, hbase]
    simp [List.append_assoc]

theorem C1_segment_path_witness :
    copySegmentPath hlsBaseDir "a1b2" "segment_000.ts" =
      .ok (hlsBaseDir ++ "/" ++ "a1b2" ++ "/" ++ "segment_000.ts") ∧
    pathStrictlyUnder (hlsBaseDir ++ "/" ++ "a1b2")
      (hlsBaseDir ++ "/" ++ "a1b2" ++ "/" ++ "segment_000.ts") :=
  C1_segment_path "a1b2" "segment_000.ts" (by decide) (by decide) (by decide)
    (by decide) (by decide) (by decide) (by decide) (by decide)

end DlnaCast
